import Mathlib

/-!
# gohook: the HookExecutor wrapper

A shallow embedding of `hookexecuter.go`.  Go maps are reference values, so the
embedding threads an explicit `World` (the map objects on the heap and the log
of HTTP requests that left the process) through every call.

* `NewHookExecutor` and `hookExecutor.Execute` are translated from the source.
  They are parametric in the two functions of the package they call, `New` and
  `(*Hook).Execute`.
* The `Hook` side of the package (`Config`, `New`, `WithHTTPClient`,
  `(*Hook).Execute` and the request builder behind it) is not part of the two
  source files; the definitions that stand for it are marked
  "Modelled from the spec".
-/

namespace gohook

/-! ## Go values -/

/-- A Go value of static type `any`.  The executor only ever stores strings in
the payload; the other constructors are the dynamic types a payload entry could
have had instead. -/
inductive GoAny where
  | null
  | str (s : String)
  | int (n : Int)
  | bool (b : Bool)
  deriving DecidableEq

/-- The contents of one Go map with string keys: a finite list of entries with
pairwise distinct keys.  The order of `entries` is the order in which a `range`
over the map visits them in the run under consideration; Go leaves that order
unspecified, and every order is a value of this type. -/
abbrev Table (V : Type) := AList (fun _ : String => V)

/-- A Go map value: `none` is the nil map, `some a` refers to the map object
stored at address `a`. -/
abbrev MapRef := Option Nat

/-- An HTTP request as handed to the transport. -/
structure Request where
  Method : String
  URL : String
  Header : List (String × String)
  Body : String
  deriving DecidableEq

/-- What `http.Client` contributes to this package: the timeout in nanoseconds
(`0` is "no timeout") and whether its TLS configuration skips certificate
validation. -/
structure Client where
  Timeout : Nat
  InsecureSkipVerify : Bool
  deriving DecidableEq

/-- The state outside the executor: the `map[string]string` objects and the
`map[string]any` objects on the heap (an address is an index into the list of
its type), and the requests issued on a transport so far, each with the client
that issued it. -/
structure World where
  strMaps : List (Table String)
  anyMaps : List (Table GoAny)
  sent : List (Client × Request)

/-- The table a `map[string]string` value denotes; the nil map has no entries. -/
def World.strTable (w : World) (m : MapRef) : Table String :=
  match m with
  | none => ∅
  | some a => (w.strMaps.get? a).getD ∅

/-- The table a `map[string]any` value denotes; the nil map has no entries. -/
def World.anyTable (w : World) (m : MapRef) : Table GoAny :=
  match m with
  | none => ∅
  | some a => (w.anyMaps.get? a).getD ∅

/-- Go `len(m)` for a `map[string]string`. -/
def len (w : World) (m : MapRef) : Nat :=
  (w.strTable m).entries.length

/-- The key/value pairs a `for k, v := range m` visits, in visiting order. -/
def range (w : World) (m : MapRef) : List (String × String) :=
  (w.strTable m).entries.map (fun kv => (kv.1, kv.2))

/-- Go `make(map[string]any, n)`: a new, empty map object at a fresh address.
The capacity hint has no observable effect. -/
def make (w : World) (_n : Nat) : Nat × World :=
  (w.anyMaps.length, { w with anyMaps := w.anyMaps ++ [∅] })

/-- Go `m[k] = v` for the `map[string]any` object at address `a`. -/
def World.setAny (w : World) (a : Nat) (k : String) (v : GoAny) : World :=
  { w with anyMaps := w.anyMaps.modify (fun t => t.insert k v) a }

/-! ## Types of the package -/

/-- The error values of the package, by kind. -/
inductive Error where
  | config (msg : String)
  | render (field : String) (template : String) (cause : String)
  | transport (cause : String)
  | readBody (cause : String)
  deriving DecidableEq

/-- An `*http.Response` as seen by the caller. -/
structure Response where
  StatusCode : Nat
  Header : List (String × String)
  deriving DecidableEq

/-- A `context.Context`, reduced to whether it has been cancelled. -/
structure Context where
  cancelled : Bool
  deriving DecidableEq

/-- The `(*http.Response, []byte, error)` triple returned by `Execute`; `none`
is Go `nil`. -/
structure ExecResult where
  resp : Option Response
  body : Option (List Nat)
  err : Option Error
  deriving DecidableEq

/-- The wrapper type of the source: selector values made available to the
templates. -/
structure TemplateData where
  Values : MapRef
  deriving DecidableEq

/-- Modelled from the spec: the `Config` struct, whose declaration is outside
the two source files.  The fields are the ones the spec's Configuration lists
and the tests set.  `Headers` holds the header templates in the (deterministic)
order in which they are rendered. -/
structure Config where
  URL : String
  Method : String
  Headers : List (String × String)
  ContentType : String
  Body : String
  StrictTemplates : Bool
  Timeout : String
  InsecureSkipVerify : Bool
  deriving DecidableEq

/-- Modelled from the spec: the `Hook` struct, whose declaration is outside the
two source files: a configuration snapshot and the transport chosen at
construction. -/
structure Hook where
  cfg : Config
  client : Client
  deriving DecidableEq

/-- A `*Hook`; `none` is the nil pointer. -/
abbrev HookPtr := Option Hook

/-- Modelled from the spec: the functional options of `New`, whose declaration
is outside the two source files.  The only option the source uses carries a
`*http.Client`. -/
inductive HookOption where
  | httpClient (client : Option Client)
  deriving DecidableEq

/-- The option constructor the source calls. -/
def WithHTTPClient (client : Option Client) : HookOption :=
  HookOption.httpClient client

/-- The struct behind the `HookExecutor` interface. -/
structure hookExecutor where
  h : HookPtr
  deriving DecidableEq

/-! ## The two functions of the source -/

/-- The function `NewHookExecutor(cfg, client)`, parametric in the constructor `New` it
calls.  The result is the Go pair `(HookExecutor, error)`, together with the
world as the call leaves it. -/
def NewHookExecutor
    (New : Config → List HookOption → World → (HookPtr × Option Error) × World)
    (cfg : Config) (client : Option Client) (w : World) :
    (Option hookExecutor × Option Error) × World :=
  let r := if client ≠ none then New cfg [WithHTTPClient client] w else New cfg [] w
  match r.1.2 with
  | some err => ((none, some err), r.2)
  | none => ((some { h := r.1.1 }, none), r.2)

/-- The method `(*hookExecutor).Execute(ctx, data)`, parametric in `(*Hook).Execute`, which
receives the hook pointer, the context, the payload map and the world, and whose
result (of any type `R`) is returned as it is. -/
def hookExecutor.Execute {R : Type}
    (hookExecute : HookPtr → Context → MapRef → World → R)
    (e : hookExecutor) (ctx : Context) (data : TemplateData) (w : World) : R :=
  let mk := make w (len w data.Values)
  let payload := mk.1
  let w1 := (range w data.Values).foldl
    (fun s kv => s.setAny payload kv.1 (GoAny.str kv.2)) mk.2
  hookExecute e.h ctx (some payload) w1

/-- The payload argument and the world that `Execute` hands to `(*Hook).Execute`
for `data` in world `w`: `Execute` run with a hook that returns what it is
given.  (The receiver and the context do not enter the conversion.) -/
def handed (data : TemplateData) (w : World) : MapRef × World :=
  hookExecutor.Execute (fun _ _ p w1 => (p, w1)) { h := none } { cancelled := false } data w

/-- The contents of the payload map handed to the hook. -/
def payloadTable (data : TemplateData) (w : World) : Table GoAny :=
  (handed data w).2.anyTable (handed data w).1

/-- The options `NewHookExecutor` passes to `New` for a given client argument. -/
def chosenOptions (client : Option Client) : List HookOption :=
  if client ≠ none then [WithHTTPClient client] else []

/-- The table the copy loop of `Execute` leaves in a map that held `acc`, after
visiting the pairs `l` in order. -/
def copyInto (acc : Table GoAny) (l : List (String × String)) : Table GoAny :=
  l.foldl (fun p kv => p.insert kv.1 (GoAny.str kv.2)) acc

/-! ## The rest of the package, from the spec -/

/-- The mapping a template is rendered against: keys to values, without any
order. -/
abbrev Mapping := Finmap (fun _ : String => GoAny)

/-- Modelled from the spec: the template rendering capability the request
builder consumes (spec section 6), `render template data strict`.  `refs` gives
the keys a template references when it is rendered.  The one law is the
strictness policy of section 4.1: under `strict = true`, referencing a key that
is absent from the data is a render error. -/
structure TemplateEngine where
  render : String → Mapping → Bool → Except String String
  refs : String → List String
  strict_missing : ∀ (tmpl : String) (data : Mapping) (key : String),
    key ∈ refs tmpl → data.lookup key = none →
      ∃ cause, render tmpl data true = Except.error cause

/-- Modelled from the spec: the transport capability (spec section 6): perform a
request with a client under a context, giving a response or a transport
failure, and drain the body of a response, which can fail as well. -/
structure Transport where
  roundTrip : Client → Context → Request → Except String Response
  readAll : Response → Except String (List Nat)

/-- Modelled from the spec: rendering of the header templates of the request
builder (section 4.1): each value is rendered independently, and a failure is a
render error tagged with that header's name. -/
def renderHeaders (eng : TemplateEngine) (strict : Bool) (data : Mapping) :
    List (String × String) → Except Error (List (String × String))
  | [] => Except.ok []
  | (name, tmpl) :: rest =>
    match eng.render tmpl data strict with
    | Except.error cause => Except.error (Error.render name tmpl cause)
    | Except.ok value =>
      match renderHeaders eng strict data rest with
      | Except.error err => Except.error err
      | Except.ok hs => Except.ok ((name, value) :: hs)

/-- Modelled from the spec: setting a header on the assembled request, last
write wins (section 4.1, Content-Type). -/
def setHeader (hs : List (String × String)) (name value : String) :
    List (String × String) :=
  hs.filter (fun kv => kv.1 ≠ name) ++ [(name, value)]

/-- Modelled from the spec: the request builder `Build(configuration, data)` of
section 4.1, which is outside the two source files.  It renders the URL (tag
`"url"`), the headers, the body if present (tag `"body"`), defaults an empty
method from the rendered body, and applies ContentType after the headers. -/
def Build (eng : TemplateEngine) (cfg : Config) (data : Mapping) : Except Error Request :=
  match eng.render cfg.URL data cfg.StrictTemplates with
  | Except.error cause => Except.error (Error.render "url" cfg.URL cause)
  | Except.ok url =>
    match renderHeaders eng cfg.StrictTemplates data cfg.Headers with
    | Except.error err => Except.error err
    | Except.ok hs =>
      match (if cfg.Body = "" then Except.ok "" else eng.render cfg.Body data cfg.StrictTemplates) with
      | Except.error cause => Except.error (Error.render "body" cfg.Body cause)
      | Except.ok body =>
        Except.ok {
          Method := if cfg.Method = "" then (if body ≠ "" then "POST" else "GET") else cfg.Method
          URL := url
          Header := if cfg.ContentType ≠ "" then setHeader hs "Content-Type" cfg.ContentType else hs
          Body := body }

/-- Modelled from the spec: `(*Hook).Execute` of section 4.2, which is outside
the two source files, on a non-nil hook.  A render failure is returned as it is
and nothing is sent; otherwise the request is issued on the hook's client (and
logged in `sent`), a transport failure is a transport error, and the body is
drained, whose failure is a read error. -/
def Hook.Execute (eng : TemplateEngine) (net : Transport) (h : Hook) (ctx : Context)
    (payload : MapRef) (w : World) : ExecResult × World :=
  match Build eng h.cfg (w.anyTable payload).toFinmap with
  | Except.error err => ({ resp := none, body := none, err := some err }, w)
  | Except.ok req =>
    let w1 := { w with sent := w.sent ++ [(h.client, req)] }
    match net.roundTrip h.client ctx req with
    | Except.error cause =>
      ({ resp := none, body := none, err := some (Error.transport cause) }, w1)
    | Except.ok resp =>
      match net.readAll resp with
      | Except.error cause =>
        ({ resp := some resp, body := none, err := some (Error.readBody cause) }, w1)
      | Except.ok bytes => ({ resp := some resp, body := some bytes, err := none }, w1)

/-- Modelled from the spec: `(*Hook).Execute` on a hook pointer.  A call on the
nil pointer has no result (`none`): it dereferences nil. -/
def execHook (eng : TemplateEngine) (net : Transport) (p : HookPtr) (ctx : Context)
    (payload : MapRef) (w : World) : Option (ExecResult × World) :=
  p.map (fun h => h.Execute eng net ctx payload w)

/-- Modelled from the spec: the client supplied through the options, if any
(a nil client supplies none). -/
def suppliedClient (opts : List HookOption) : Option Client :=
  opts.foldl (fun acc o => match o with
    | HookOption.httpClient c => if c ≠ none then c else acc) none

/-- Modelled from the spec: the timeout of a configuration, through the duration
parser `parseDuration` (nanoseconds; `none` for an unparsable string).  The
field is optional: the empty string is no timeout. -/
def timeoutOf (parseDuration : String → Option Nat) (cfg : Config) : Option Nat :=
  if cfg.Timeout = "" then some 0 else parseDuration cfg.Timeout

/-- Modelled from the spec: the constructor `New(cfg, opts...)` of section 4.2,
which is outside the two source files.  A supplied client is used as it is and
`Timeout` and `InsecureSkipVerify` are not looked at; without one the client is
built from these two fields, and an unparsable timeout is a configuration
error.  Construction is independent of the network: the world is returned as it
came. -/
def New (parseDuration : String → Option Nat) (cfg : Config) (opts : List HookOption)
    (w : World) : (HookPtr × Option Error) × World :=
  match suppliedClient opts with
  | some c => ((some { cfg := cfg, client := c }, none), w)
  | none =>
    match timeoutOf parseDuration cfg with
    | none => ((none, some (Error.config ("invalid timeout: " ++ cfg.Timeout))), w)
    | some d =>
      ((some { cfg := cfg,
               client := { Timeout := d, InsecureSkipVerify := cfg.InsecureSkipVerify } },
        none), w)

/-! ## Concrete values, for the instances -/

/-- The selector values of the delegation test. -/
def testValues : Table String :=
  ((((∅ : Table String).insert "message" "hi").insert "name" "alice").insert
    "query" "hello world").insert "id" "42"

/-- A world whose only map object is `testValues`, at address 0. -/
def testWorld : World :=
  { strMaps := [testValues], anyMaps := [], sent := [] }

/-- The selector values of the delegation test again, as a map that a `range`
visits in another order. -/
def testValuesReordered : Table String :=
  ((((∅ : Table String).insert "id" "42").insert "query" "hello world").insert
    "message" "hi").insert "name" "alice"

/-- A later world: the same selector values in a map visited in another order,
with the payload and the request of an earlier call still around. -/
def laterWorld : World :=
  { strMaps := [testValuesReordered],
    anyMaps := [payloadTable { Values := some 0 } testWorld],
    sent := [({ Timeout := 0, InsecureSkipVerify := false },
              { Method := "GET", URL := "http://example/", Header := [], Body := "" })] }

/-- A world whose only map object is an empty, non-nil `map[string]string`. -/
def emptyMapWorld : World :=
  { strMaps := [∅], anyMaps := [], sent := [] }

/-- The configuration of the strict-templates test: the URL template references
a key the data does not have. -/
def strictCfg : Config :=
  { URL := "missing", Method := "", Headers := [], ContentType := "", Body := "",
    StrictTemplates := true, Timeout := "", InsecureSkipVerify := false }

/-- The configuration of the delegation test: URL, one header, a content type
and a body template, and no method. -/
def echoCfg : Config :=
  { URL := "id", Method := "", Headers := [("X-Name", "name")], ContentType := "text/plain",
    Body := "message", StrictTemplates := false, Timeout := "", InsecureSkipVerify := false }

/-- A configuration whose body template is not empty but renders to the empty
string on the data of the delegation test, and no method. -/
def blankBodyCfg : Config :=
  { URL := "id", Method := "", Headers := [], ContentType := "", Body := "absent",
    StrictTemplates := false, Timeout := "", InsecureSkipVerify := false }

/-- The client `New` builds for a configuration without timeout and with
certificate validation. -/
def plainClient : Client :=
  { Timeout := 0, InsecureSkipVerify := false }

/-- A hook that writes into the map it is handed and touches nothing else. -/
def writingHook (_p : HookPtr) (_ctx : Context) (m : MapRef) (s : World) : Unit × World :=
  match m with
  | some a => ((), s.setAny a "extra" (GoAny.int 1))
  | none => ((), s)

/-- A rendering capability in which a template is the name of one key and
renders to that key's string value; a missing key is an error under strictness
and the empty string otherwise. -/
def keyEngine : TemplateEngine where
  render := fun tmpl data strict =>
    match data.lookup tmpl with
    | some (GoAny.str s) => Except.ok s
    | some _ => Except.ok ""
    | none => if strict then Except.error "map has no entry for key" else Except.ok ""
  refs := fun tmpl => [tmpl]
  strict_missing := by
    intro tmpl data key hk hl
    simp only [List.mem_singleton] at hk
    subst hk
    exact ⟨"map has no entry for key", by simp [hl]⟩

/-- A transport that answers every request with status 200 and an empty
body, unless the context is cancelled. -/
def okTransport : Transport where
  roundTrip := fun _ ctx _ =>
    if ctx.cancelled then Except.error "context canceled"
    else Except.ok { StatusCode := 200, Header := [] }
  readAll := fun _ => Except.ok []

/-- A duration parser that knows the one duration of the tests. -/
def tenMs (s : String) : Option Nat :=
  if s = "10ms" then some 10000000 else none

/-! ## The copy loop -/

theorem modify_fresh {α : Type} (f : α → α) (pre : List α) (t : α) :
    (pre ++ [t]).modify f pre.length = pre ++ [f t] := by
  induction pre with
  | nil => rfl
  | cons a pre ih => simp [ih]

theorem foldl_setAny (sm : List (Table String)) (pre : List (Table GoAny))
    (sent : List (Client × Request)) (l : List (String × String)) (t : Table GoAny) :
    l.foldl (fun (s : World) kv => s.setAny pre.length kv.1 (GoAny.str kv.2))
        { strMaps := sm, anyMaps := pre ++ [t], sent := sent }
      = { strMaps := sm, anyMaps := pre ++ [copyInto t l], sent := sent } := by
  induction l generalizing t with
  | nil => rfl
  | cons kv l ih =>
    simp only [List.foldl_cons, World.setAny, modify_fresh, copyInto]
    exact ih _

/-- What `Execute` hands to the hook, in closed form: the fresh address and the
world extended by one new map object holding the copy. -/
theorem handed_eq (data : TemplateData) (w : World) :
    handed data w =
      (some w.anyMaps.length,
       { w with anyMaps := w.anyMaps ++ [copyInto ∅ (range w data.Values)] }) := by
  unfold handed hookExecutor.Execute make
  simp only []
  rw [foldl_setAny]

theorem execute_eq_handed {R : Type} (hookExecute : HookPtr → Context → MapRef → World → R)
    (e : hookExecutor) (ctx : Context) (data : TemplateData) (w : World) :
    e.Execute hookExecute ctx data w = hookExecute e.h ctx (handed data w).1 (handed data w).2 :=
  rfl

theorem payloadTable_eq (data : TemplateData) (w : World) :
    payloadTable data w = copyInto ∅ (range w data.Values) := by
  unfold payloadTable
  rw [handed_eq]
  simp [World.anyTable]

theorem lookup_copyInto (k : String) (l : List (Sigma (fun _ : String => String)))
    (nd : l.NodupKeys) (acc : Table GoAny) :
    (copyInto acc (l.map (fun kv => (kv.1, kv.2)))).lookup k =
      match l.dlookup k with
      | some v => some (GoAny.str v)
      | none => acc.lookup k := by
  induction l generalizing acc with
  | nil => simp [copyInto]
  | cons kv l ih =>
    obtain ⟨a, b⟩ := kv
    rw [List.nodupKeys_cons] at nd
    have step : copyInto acc ((⟨a, b⟩ :: l : List (Sigma (fun _ : String => String))).map
        (fun kv => (kv.1, kv.2))) =
        copyInto (acc.insert a (GoAny.str b)) (l.map (fun kv => (kv.1, kv.2))) := rfl
    rw [step, ih nd.2]
    by_cases hk : k = a
    · subst hk
      have hn : l.dlookup k = none := List.dlookup_eq_none.mpr nd.1
      simp [hn, List.dlookup_cons_eq]
    · rw [List.dlookup_cons_ne l ⟨a, b⟩ hk]
      cases l.dlookup k with
      | some v => rfl
      | none => simp [AList.lookup_insert_ne hk]

theorem lookup_payloadTable (data : TemplateData) (w : World) (k : String) :
    (payloadTable data w).lookup k = ((w.strTable data.Values).lookup k).map GoAny.str := by
  rw [payloadTable_eq, range, lookup_copyInto k _ (w.strTable data.Values).nodupKeys]
  simp only [AList.lookup_empty, AList.lookup]
  cases List.dlookup k (w.strTable data.Values).entries <;> rfl

theorem mem_payloadTable (data : TemplateData) (w : World) (k : String) :
    k ∈ payloadTable data w ↔ k ∈ w.strTable data.Values := by
  rw [← AList.lookup_isSome, ← AList.lookup_isSome, lookup_payloadTable]
  cases AList.lookup k (w.strTable data.Values) <;> simp

theorem keys_payloadTable (data : TemplateData) (w : World) :
    (payloadTable data w).keys.Perm (w.strTable data.Values).keys := by
  rw [List.perm_ext_iff_of_nodup (AList.keys_nodup _) (AList.keys_nodup _)]
  intro k
  rw [← AList.mem_keys, ← AList.mem_keys]
  exact mem_payloadTable data w k

theorem length_payloadTable (data : TemplateData) (w : World) :
    (payloadTable data w).entries.length = len w data.Values := by
  have h := (keys_payloadTable data w).length_eq
  simpa [AList.keys, List.keys, len] using h

theorem toFinmap_payloadTable (d1 d2 : TemplateData) (w1 w2 : World)
    (hperm : (w1.strTable d1.Values).entries.Perm (w2.strTable d2.Values).entries) :
    (payloadTable d1 w1).toFinmap = (payloadTable d2 w2).toFinmap := by
  apply Finmap.ext_lookup
  intro k
  rw [Finmap.lookup_toFinmap, Finmap.lookup_toFinmap, lookup_payloadTable,
    lookup_payloadTable, AList.perm_lookup hperm]

/-! ## Claims about `Execute` -/

/-- C1: `Execute` returns exactly what the underlying hook's `Execute` returns
for the hook pointer stored in the executor, the same context and the payload
converted from `data.Values` (a new map whose entry for each key is the string
of `data.Values`); in particular a render failure reported by the hook is
returned unchanged, with no response or body put in its place. -/
theorem C1_execute_returns_hook_result {R : Type}
    (hookExecute : HookPtr → Context → MapRef → World → R)
    (e : hookExecutor) (ctx : Context) (data : TemplateData) (w : World) :
    e.Execute hookExecute ctx data w =
        hookExecute e.h ctx (some w.anyMaps.length)
          { w with anyMaps := w.anyMaps ++ [payloadTable data w] }
      ∧ (∀ k, (payloadTable data w).lookup k =
          ((w.strTable data.Values).lookup k).map GoAny.str)
      ∧ ∀ (hk : HookPtr → Context → MapRef → World → ExecResult × World)
          (field tmpl cause : String) (w2 : World),
          hk e.h ctx (some w.anyMaps.length)
              { w with anyMaps := w.anyMaps ++ [payloadTable data w] } =
            ({ resp := none, body := none, err := some (Error.render field tmpl cause) }, w2) →
          e.Execute hk ctx data w =
            ({ resp := none, body := none, err := some (Error.render field tmpl cause) }, w2) := by
  have key : ∀ {S : Type} (f : HookPtr → Context → MapRef → World → S),
      e.Execute f ctx data w = f e.h ctx (some w.anyMaps.length)
        { w with anyMaps := w.anyMaps ++ [payloadTable data w] } := by
    intro S f
    rw [execute_eq_handed, payloadTable_eq, handed_eq]
  refine ⟨key hookExecute, lookup_payloadTable data w, ?_⟩
  intro hk field tmpl cause w2 hres
  rw [key hk, hres]

/-- C2: the payload map handed to the hook has, for every key, the string of
`data.Values` at that key and no entry where `data.Values` has none; its key set
is that of `data.Values` and it has as many entries as `data.Values`. -/
theorem C2_payload_same_keys_and_values (data : TemplateData) (w : World) :
    (∀ k, (payloadTable data w).lookup k =
        ((w.strTable data.Values).lookup k).map GoAny.str)
      ∧ (∀ k, k ∈ (payloadTable data w).keys ↔ k ∈ (w.strTable data.Values).keys)
      ∧ (payloadTable data w).keys.Perm (w.strTable data.Values).keys
      ∧ (payloadTable data w).entries.length = len w data.Values :=
  ⟨lookup_payloadTable data w,
   fun k => by
    rw [← AList.mem_keys, ← AList.mem_keys]
    exact mem_payloadTable data w k,
   keys_payloadTable data w, length_payloadTable data w⟩

/-- The payload of the delegation test: `id`, `query`, `name` and `message`
arrive with their strings, and nothing else does. -/
theorem payload_of_testValues :
    (payloadTable { Values := some 0 } testWorld).lookup "id" = some (GoAny.str "42")
      ∧ (payloadTable { Values := some 0 } testWorld).lookup "query"
          = some (GoAny.str "hello world")
      ∧ (payloadTable { Values := some 0 } testWorld).lookup "name" = some (GoAny.str "alice")
      ∧ (payloadTable { Values := some 0 } testWorld).lookup "message" = some (GoAny.str "hi")
      ∧ (payloadTable { Values := some 0 } testWorld).lookup "other" = none
      ∧ (payloadTable { Values := some 0 } testWorld).entries.length = 4 := by
  simp only [lookup_payloadTable, length_payloadTable]
  decide

/-- C8: `Execute` does not mutate caller state.  The world it hands to the hook
is the caller's world plus one new map object, the payload, at a fresh address;
so for every hook that writes to no map other than the one it is handed, after
`Execute` every `map[string]string` object, `data.Values` among them, and every
`map[string]any` object that existed before the call holds what it held
before. -/
theorem C8_execute_keeps_caller_maps {X : Type}
    (hookExecute : HookPtr → Context → MapRef → World → X × World)
    (e : hookExecutor) (ctx : Context) (data : TemplateData) (w : World)
    (hframe : ∀ p c a s, (hookExecute p c (some a) s).2.strMaps = s.strMaps
      ∧ ∀ b, b ≠ a → (hookExecute p c (some a) s).2.anyMaps.get? b = s.anyMaps.get? b) :
    handed data w =
        (some w.anyMaps.length, { w with anyMaps := w.anyMaps ++ [payloadTable data w] })
      ∧ (e.Execute hookExecute ctx data w).2.strMaps = w.strMaps
      ∧ (e.Execute hookExecute ctx data w).2.strTable data.Values = w.strTable data.Values
      ∧ ∀ b, b < w.anyMaps.length →
          (e.Execute hookExecute ctx data w).2.anyMaps.get? b = w.anyMaps.get? b := by
  have hh : handed data w =
      (some w.anyMaps.length, { w with anyMaps := w.anyMaps ++ [payloadTable data w] }) := by
    rw [payloadTable_eq, handed_eq]
  have hs : (e.Execute hookExecute ctx data w).2.strMaps = w.strMaps := by
    rw [execute_eq_handed, hh]
    exact (hframe _ _ _ _).1
  refine ⟨hh, hs, ?_, ?_⟩
  · cases hv : data.Values with
    | none => rfl
    | some a => simp only [World.strTable, hs]
  · intro b hb
    rw [execute_eq_handed, hh, (hframe _ _ _ _).2 b (Nat.ne_of_lt hb)]
    simp [List.getElem?_append_left hb]

/-- C8 at a concrete input: a hook that writes into its payload, run on the
data of the delegation test. -/
theorem C8_execute_keeps_caller_maps_witness :
    handed { Values := some 0 } testWorld =
        (some testWorld.anyMaps.length,
         { testWorld with
           anyMaps := testWorld.anyMaps ++ [payloadTable { Values := some 0 } testWorld] })
      ∧ (hookExecutor.Execute writingHook { h := none } { cancelled := false }
          { Values := some 0 } testWorld).2.strMaps = testWorld.strMaps
      ∧ (hookExecutor.Execute writingHook { h := none } { cancelled := false }
          { Values := some 0 } testWorld).2.strTable (some 0) = testWorld.strTable (some 0)
      ∧ ∀ b, b < testWorld.anyMaps.length →
          (hookExecutor.Execute writingHook { h := none } { cancelled := false }
            { Values := some 0 } testWorld).2.anyMaps.get? b = testWorld.anyMaps.get? b :=
  C8_execute_keeps_caller_maps writingHook { h := none } { cancelled := false }
    { Values := some 0 } testWorld
    (fun _ _ a s => ⟨rfl, fun b hb => by
      simp [writingHook, World.setAny, List.getElem?_modify_ne _ _ (Ne.symm hb)]⟩)

/-- C10: on a `TemplateData` whose `Values` is nil or empty the loop visits
nothing, the hook is handed a non-nil map that is empty, and the call returns
what the hook returns for it. -/
theorem C10_execute_on_empty_values {R : Type}
    (hookExecute : HookPtr → Context → MapRef → World → R)
    (e : hookExecutor) (ctx : Context) (data : TemplateData) (w : World)
    (hz : len w data.Values = 0) :
    range w data.Values = []
      ∧ (handed data w).1 = some w.anyMaps.length
      ∧ (handed data w).1 ≠ none
      ∧ payloadTable data w = ∅
      ∧ e.Execute hookExecute ctx data w =
          hookExecute e.h ctx (some w.anyMaps.length) { w with anyMaps := w.anyMaps ++ [∅] } := by
  have hr : range w data.Values = [] := by
    unfold len at hz
    unfold range
    rw [List.length_eq_zero] at hz
    rw [hz]
    rfl
  have hp : payloadTable data w = ∅ := by
    rw [payloadTable_eq, hr]
    rfl
  have hh : handed data w =
      (some w.anyMaps.length, { w with anyMaps := w.anyMaps ++ [∅] }) := by
    rw [handed_eq, hr]
    rfl
  refine ⟨hr, by rw [hh], by rw [hh]; simp, hp, ?_⟩
  rw [execute_eq_handed, hh]

/-- C10 at the zero value `TemplateData{}`, whose `Values` is the nil map. -/
theorem C10_execute_on_empty_values_witness :
    len testWorld none = 0
      ∧ (range testWorld none = []
        ∧ (handed { Values := none } testWorld).1 = some testWorld.anyMaps.length
        ∧ (handed { Values := none } testWorld).1 ≠ none
        ∧ payloadTable { Values := none } testWorld = ∅
        ∧ hookExecutor.Execute writingHook { h := none } { cancelled := false }
            { Values := none } testWorld =
          writingHook none { cancelled := false } (some testWorld.anyMaps.length)
            { testWorld with anyMaps := testWorld.anyMaps ++ [∅] }) :=
  ⟨rfl, C10_execute_on_empty_values writingHook { h := none } { cancelled := false }
    { Values := none } testWorld rfl⟩

/-- C9: the payload handed to the hook is a function of the contents of
`data.Values` only.  For two calls on the same executor whose `data.Values`
hold the same entries, whatever the order in which they are visited and
whatever earlier calls left in the world, the two payloads are the same
mapping, both calls pass the executor's stored hook pointer, which `Execute`
does not change, and every hook whose result is determined by the hook pointer,
the context and the payload mapping (as a rendered request is) gives the same
result in both calls. -/
theorem C9_execute_payload_depends_on_contents_only {X : Type}
    (F : HookPtr → Context → Mapping → X)
    (e : hookExecutor) (ctx : Context) (d1 d2 : TemplateData) (w1 w2 : World)
    (hperm : (w1.strTable d1.Values).entries.Perm (w2.strTable d2.Values).entries) :
    (payloadTable d1 w1).toFinmap = (payloadTable d2 w2).toFinmap
      ∧ (∀ k, (payloadTable d1 w1).lookup k = (payloadTable d2 w2).lookup k)
      ∧ e.Execute (fun p _ _ _ => p) ctx d1 w1 = e.h
      ∧ e.Execute (fun p _ _ _ => p) ctx d2 w2 = e.h
      ∧ e.Execute (fun p c m s => F p c (s.anyTable m).toFinmap) ctx d1 w1 =
          e.Execute (fun p c m s => F p c (s.anyTable m).toFinmap) ctx d2 w2 := by
  have hfin := toFinmap_payloadTable d1 d2 w1 w2 hperm
  refine ⟨hfin, ?_, rfl, rfl, ?_⟩
  · intro k
    rw [lookup_payloadTable, lookup_payloadTable, AList.perm_lookup hperm]
  · rw [execute_eq_handed, execute_eq_handed]
    exact congrArg (F e.h ctx) hfin

/-- C9 at a concrete input: the data of the delegation test, first in a fresh
world and then, visited in another order, in a world that an earlier call has
left its payload and request in. -/
theorem C9_execute_payload_depends_on_contents_only_witness :
    (testWorld.strTable (some 0)).entries.Perm (laterWorld.strTable (some 0)).entries
      ∧ (payloadTable { Values := some 0 } testWorld).toFinmap =
          (payloadTable { Values := some 0 } laterWorld).toFinmap
      ∧ hookExecutor.Execute (fun _ _ m s => (World.anyTable s m).toFinmap) { h := none }
            { cancelled := false } { Values := some 0 } testWorld =
          hookExecutor.Execute (fun _ _ m s => (World.anyTable s m).toFinmap) { h := none }
            { cancelled := false } { Values := some 0 } laterWorld :=
  have hperm : (testWorld.strTable (some 0)).entries.Perm
      (laterWorld.strTable (some 0)).entries := by decide
  have h := C9_execute_payload_depends_on_contents_only (fun _ _ m => m) { h := none }
    { cancelled := false } { Values := some 0 } { Values := some 0 } testWorld laterWorld hperm
  ⟨hperm, h.1, h.2.2.2.2⟩

/-! ## Claims about `NewHookExecutor` -/

/-- C4: `NewHookExecutor` fails exactly when `New` fails for the arguments it
chooses.  Then it returns a nil executor and that same error (so a
configuration error of `New` arrives as that configuration error); otherwise it
returns a non-nil executor wrapping the hook `New` constructed and a nil error.
It never returns a non-nil executor together with a non-nil error, and it
leaves the world as `New` leaves it: it adds no network access of its own. -/
theorem C4_newHookExecutor_fails_iff_new_fails
    (New : Config → List HookOption → World → (HookPtr × Option Error) × World)
    (cfg : Config) (client : Option Client) (w : World) :
    ((NewHookExecutor New cfg client w).1.2 ≠ none ↔
        (New cfg (chosenOptions client) w).1.2 ≠ none)
      ∧ (∀ err, (New cfg (chosenOptions client) w).1.2 = some err →
          NewHookExecutor New cfg client w =
            ((none, some err), (New cfg (chosenOptions client) w).2))
      ∧ (∀ msg, (New cfg (chosenOptions client) w).1.2 = some (Error.config msg) →
          (NewHookExecutor New cfg client w).1 = (none, some (Error.config msg)))
      ∧ ((New cfg (chosenOptions client) w).1.2 = none →
          NewHookExecutor New cfg client w =
            ((some { h := (New cfg (chosenOptions client) w).1.1 }, none),
             (New cfg (chosenOptions client) w).2))
      ∧ ¬ ((NewHookExecutor New cfg client w).1.1 ≠ none
            ∧ (NewHookExecutor New cfg client w).1.2 ≠ none)
      ∧ (NewHookExecutor New cfg client w).2 = (New cfg (chosenOptions client) w).2 := by
  have hr : (if client ≠ none then New cfg [WithHTTPClient client] w else New cfg [] w) =
      New cfg (chosenOptions client) w := by
    unfold chosenOptions
    split <;> rfl
  unfold NewHookExecutor
  simp only [hr]
  cases hres : (New cfg (chosenOptions client) w).1.2 <;> simp

/-! ## Construction and execution with the modelled `Hook` -/

theorem new_supplied (parseDuration : String → Option Nat) (cfg : Config) (c : Client)
    (w : World) :
    NewHookExecutor (New parseDuration) cfg (some c) w =
      ((some { h := some { cfg := cfg, client := c } }, none), w) := by
  simp [NewHookExecutor, New, suppliedClient, WithHTTPClient]

theorem new_default (parseDuration : String → Option Nat) (cfg : Config) (w : World) :
    NewHookExecutor (New parseDuration) cfg none w =
      match timeoutOf parseDuration cfg with
      | none => ((none, some (Error.config ("invalid timeout: " ++ cfg.Timeout))), w)
      | some d =>
        ((some { h := some { cfg := cfg,
                             client := { Timeout := d,
                                         InsecureSkipVerify := cfg.InsecureSkipVerify } } },
          none), w) := by
  simp only [NewHookExecutor, New, suppliedClient, ne_eq, not_true_eq_false, if_false,
    List.foldl_nil]
  cases timeoutOf parseDuration cfg <;> rfl

/-- An executor that `NewHookExecutor` returns for `cfg` wraps a non-nil hook
holding `cfg`, and construction leaves the world alone. -/
theorem new_hook (parseDuration : String → Option Nat) (cfg : Config)
    (client : Option Client) (w0 w1 : World) (e : hookExecutor)
    (hnew : NewHookExecutor (New parseDuration) cfg client w0 = ((some e, none), w1)) :
    ∃ c, e = { h := some { cfg := cfg, client := c } } ∧ w1 = w0 := by
  cases client with
  | some c =>
    rw [new_supplied] at hnew
    simp only [Prod.mk.injEq, Option.some.injEq, and_true] at hnew
    exact ⟨c, hnew.1.symm, hnew.2.symm⟩
  | none =>
    rw [new_default] at hnew
    cases ht : timeoutOf parseDuration cfg with
    | none => simp [ht] at hnew
    | some d =>
      simp only [ht, Prod.mk.injEq, Option.some.injEq, and_true] at hnew
      exact ⟨_, hnew.1.symm, hnew.2.symm⟩

/-- What the modelled `(*Hook).Execute` does to the world: it appends to the
request log, and what it appends was issued on the hook's client. -/
theorem hook_execute_log (eng : TemplateEngine) (net : Transport) (h : Hook) (ctx : Context)
    (p : MapRef) (w : World) :
    ∃ l, (h.Execute eng net ctx p w).2 = { w with sent := w.sent ++ l }
      ∧ ∀ x ∈ l, x.1 = h.client := by
  unfold Hook.Execute
  cases Build eng h.cfg (w.anyTable p).toFinmap with
  | error err => exact ⟨[], by simp, by simp⟩
  | ok req =>
    refine ⟨[(h.client, req)], ?_, by simp⟩
    simp only []
    split
    · rfl
    · split <;> rfl

theorem build_url_error (eng : TemplateEngine) (cfg : Config) (data : Mapping) (key : String)
    (hs : cfg.StrictTemplates = true) (hk : key ∈ eng.refs cfg.URL)
    (hm : data.lookup key = none) :
    ∃ cause, Build eng cfg data = Except.error (Error.render "url" cfg.URL cause) := by
  obtain ⟨cause, hc⟩ := eng.strict_missing cfg.URL data key hk hm
  refine ⟨cause, ?_⟩
  unfold Build
  rw [hs, hc]

theorem build_method_default (eng : TemplateEngine) (cfg : Config) (data : Mapping)
    (req : Request) (hm : cfg.Method = "") (hb : Build eng cfg data = Except.ok req) :
    (req.Body ≠ "" → req.Method = "POST") ∧ (req.Body = "" → req.Method = "GET")
      ∧ ((cfg.Body = "" ∧ req.Body = "")
          ∨ (cfg.Body ≠ "" ∧
              eng.render cfg.Body data cfg.StrictTemplates = Except.ok req.Body)) := by
  unfold Build at hb
  cases hu : eng.render cfg.URL data cfg.StrictTemplates with
  | error cause => simp [hu] at hb
  | ok url =>
    cases hh : renderHeaders eng cfg.StrictTemplates data cfg.Headers with
    | error err => simp [hu, hh] at hb
    | ok hs =>
      by_cases hbody : cfg.Body = ""
      · simp only [hu, hh, hbody, if_true, hm, Except.ok.injEq] at hb
        subst hb
        simp [hbody]
      · cases hr : eng.render cfg.Body data cfg.StrictTemplates with
        | error cause => simp [hu, hh, hbody, hr] at hb
        | ok body =>
          simp only [hu, hh, hbody, if_false, hr, hm, if_true, Except.ok.injEq] at hb
          subst hb
          by_cases hbe : body = "" <;> simp [hbe, hbody]

theorem execute_hook_some (eng : TemplateEngine) (net : Transport) (h : Hook) (ctx : Context)
    (data : TemplateData) (w : World) :
    hookExecutor.Execute (execHook eng net) { h := some h } ctx data w =
      some (h.Execute eng net ctx (handed data w).1 (handed data w).2) :=
  rfl

theorem handed_sent (data : TemplateData) (w : World) : (handed data w).2.sent = w.sent := by
  rw [handed_eq]

/-- With the modelled hook, `Execute` leaves every map of the caller as it was:
the world after the call is the caller's world with the payload object added
and the request log extended by what was issued on the hook's client. -/
theorem execute_modelled_hook_world (eng : TemplateEngine) (net : Transport) (h : Hook)
    (ctx : Context) (data : TemplateData) (w : World) :
    ∃ res l, hookExecutor.Execute (execHook eng net) { h := some h } ctx data w =
        some (res, { w with anyMaps := w.anyMaps ++ [payloadTable data w],
                            sent := w.sent ++ l })
      ∧ ∀ x ∈ l, x.1 = h.client := by
  obtain ⟨l, hl, hc⟩ := hook_execute_log eng net h ctx (handed data w).1 (handed data w).2
  refine ⟨(h.Execute eng net ctx (handed data w).1 (handed data w).2).1, l, ?_, hc⟩
  rw [execute_hook_some]
  have hw : (handed data w).2 = { w with anyMaps := w.anyMaps ++ [payloadTable data w] } := by
    rw [payloadTable_eq, handed_eq]
  rw [hw] at hl
  rw [← hl, ← hw]

/-- The request rendered for a call depends on the contents of `data.Values`
only: the same entries, visited in any order and in any world, render to the
same request or the same render error. -/
theorem rendered_request_depends_on_contents_only (eng : TemplateEngine) (cfg : Config)
    (d1 d2 : TemplateData) (w1 w2 : World)
    (hperm : (w1.strTable d1.Values).entries.Perm (w2.strTable d2.Values).entries) :
    Build eng cfg (payloadTable d1 w1).toFinmap = Build eng cfg (payloadTable d2 w2).toFinmap := by
  rw [toFinmap_payloadTable d1 d2 w1 w2 hperm]

/-- C3: with a non-nil client supplied, construction succeeds with that client
as the hook's transport whatever `Timeout` and `InsecureSkipVerify` say: two
configurations that differ only in these two fields give executors that wrap the
supplied client, that return the same result for every `Execute` call, and
whose requests are all issued on the supplied client. -/
theorem C3_supplied_client_overrides_config (parseDuration : String → Option Nat)
    (cfg : Config) (t1 t2 : String) (i1 i2 : Bool) (c : Client) (w : World)
    (eng : TemplateEngine) (net : Transport) (ctx : Context) (data : TemplateData)
    (w0 : World) :
    NewHookExecutor (New parseDuration)
        { cfg with Timeout := t1, InsecureSkipVerify := i1 } (some c) w =
        ((some { h := some { cfg := { cfg with Timeout := t1, InsecureSkipVerify := i1 },
                              client := c } }, none), w)
      ∧ NewHookExecutor (New parseDuration)
          { cfg with Timeout := t2, InsecureSkipVerify := i2 } (some c) w =
          ((some { h := some { cfg := { cfg with Timeout := t2, InsecureSkipVerify := i2 },
                                client := c } }, none), w)
      ∧ hookExecutor.Execute (execHook eng net)
            { h := some { cfg := { cfg with Timeout := t1, InsecureSkipVerify := i1 },
                          client := c } } ctx data w0 =
          hookExecutor.Execute (execHook eng net)
            { h := some { cfg := { cfg with Timeout := t2, InsecureSkipVerify := i2 },
                          client := c } } ctx data w0
      ∧ ∃ res l, hookExecutor.Execute (execHook eng net)
            { h := some { cfg := { cfg with Timeout := t1, InsecureSkipVerify := i1 },
                          client := c } } ctx data w0 =
          some (res, { (handed data w0).2 with sent := w0.sent ++ l })
        ∧ ∀ x ∈ l, x.1 = c := by
  refine ⟨new_supplied _ _ _ _, new_supplied _ _ _ _, rfl, ?_⟩
  obtain ⟨l, hl, hc⟩ := hook_execute_log eng net
    { cfg := { cfg with Timeout := t1, InsecureSkipVerify := i1 }, client := c } ctx
    (handed data w0).1 (handed data w0).2
  refine ⟨(Hook.Execute eng net
    { cfg := { cfg with Timeout := t1, InsecureSkipVerify := i1 }, client := c } ctx
    (handed data w0).1 (handed data w0).2).1, l, ?_, hc⟩
  rw [execute_hook_some, ← handed_sent data w0, ← hl]

/-- The custom-client test: a configuration that asks to skip certificate
validation and has a timeout that does not parse still yields an executor on
the supplied client, which validates certificates. -/
theorem supplied_client_with_bad_timeout :
    NewHookExecutor (New tenMs)
        { strictCfg with Timeout := "soon", InsecureSkipVerify := true }
        (some plainClient) emptyMapWorld =
      ((some { h := some {
          cfg := { strictCfg with Timeout := "soon", InsecureSkipVerify := true },
          client := plainClient } }, none), emptyMapWorld)
      ∧ plainClient.InsecureSkipVerify = false :=
  ⟨rfl, rfl⟩

/-- C5: with no client supplied, `NewHookExecutor` builds the hook by `New` on
the configuration with no option.  Construction fails with a configuration
error when `Timeout` is set and does not parse; otherwise it succeeds and the
hook's client has the parsed timeout (none for an empty `Timeout`) and skips
certificate validation exactly when `InsecureSkipVerify` is set. -/
theorem C5_no_client_builds_from_config (parseDuration : String → Option Nat)
    (cfg : Config) (w : World) :
    (∀ N : Config → List HookOption → World → (HookPtr × Option Error) × World,
        NewHookExecutor N cfg none w =
          match (N cfg [] w).1.2 with
          | some err => ((none, some err), (N cfg [] w).2)
          | none => ((some { h := (N cfg [] w).1.1 }, none), (N cfg [] w).2))
      ∧ (cfg.Timeout ≠ "" → parseDuration cfg.Timeout = none →
          ∃ msg, NewHookExecutor (New parseDuration) cfg none w =
            ((none, some (Error.config msg)), w))
      ∧ (∀ d, (cfg.Timeout = "" ∧ d = 0) ∨ (cfg.Timeout ≠ "" ∧ parseDuration cfg.Timeout = some d) →
          NewHookExecutor (New parseDuration) cfg none w =
            ((some { h := some { cfg := cfg,
                                 client := { Timeout := d,
                                             InsecureSkipVerify := cfg.InsecureSkipVerify } } },
              none), w))
      ∧ (cfg.InsecureSkipVerify = true →
          ∀ e w1, NewHookExecutor (New parseDuration) cfg none w = ((some e, none), w1) →
            ∃ d, e.h = some { cfg := cfg,
                              client := { Timeout := d, InsecureSkipVerify := true } }) := by
  refine ⟨fun N => rfl, ?_, ?_, ?_⟩
  · intro hne hp
    refine ⟨"invalid timeout: " ++ cfg.Timeout, ?_⟩
    rw [new_default]
    simp [timeoutOf, hne, hp]
  · intro d hd
    rw [new_default]
    rcases hd with ⟨he, hd0⟩ | ⟨hne, hp⟩
    · simp [timeoutOf, he, hd0]
    · simp [timeoutOf, hne, hp]
  · intro hi e w1 hnew
    rw [new_default] at hnew
    cases ht : timeoutOf parseDuration cfg with
    | none => simp [ht] at hnew
    | some d =>
      simp only [ht, Prod.mk.injEq, Option.some.injEq, and_true] at hnew
      exact ⟨d, by rw [← hnew.1, hi]⟩

/-- The nil-client tests: an unparsable timeout fails construction, `10ms`
gives a client with that timeout, and `InsecureSkipVerify` reaches the
client. -/
theorem no_client_examples :
    NewHookExecutor (New tenMs) { strictCfg with Timeout := "soon" } none emptyMapWorld =
        ((none, some (Error.config "invalid timeout: soon")), emptyMapWorld)
      ∧ NewHookExecutor (New tenMs) { strictCfg with Timeout := "10ms" } none emptyMapWorld =
          ((some { h := some { cfg := { strictCfg with Timeout := "10ms" },
                                client := { Timeout := 10000000,
                                            InsecureSkipVerify := false } } },
            none), emptyMapWorld)
      ∧ NewHookExecutor (New tenMs) { strictCfg with InsecureSkipVerify := true } none
            emptyMapWorld =
          ((some { h := some { cfg := { strictCfg with InsecureSkipVerify := true },
                                client := { Timeout := 0, InsecureSkipVerify := true } } },
            none), emptyMapWorld) :=
  ⟨rfl, rfl, rfl⟩

/-! ## Claims about rendering through the executor -/

/-- C6: for an executor constructed from a configuration with
`StrictTemplates = true` whose URL template references a key that
`data.Values` does not have, `Execute` returns no response, no body and a render
error tagged `"url"` (carrying the URL template), and the log of issued requests
is what it was before the call. -/
theorem C6_strict_missing_key_is_url_render_error (eng : TemplateEngine) (net : Transport)
    (parseDuration : String → Option Nat) (cfg : Config) (client : Option Client)
    (w0 w1 : World) (e : hookExecutor) (ctx : Context) (data : TemplateData) (w : World)
    (key : String)
    (hnew : NewHookExecutor (New parseDuration) cfg client w0 = ((some e, none), w1))
    (hs : cfg.StrictTemplates = true) (hk : key ∈ eng.refs cfg.URL)
    (hm : (w.strTable data.Values).lookup key = none) :
    ∃ cause, e.Execute (execHook eng net) ctx data w =
        some ({ resp := none, body := none,
                err := some (Error.render "url" cfg.URL cause) }, (handed data w).2)
      ∧ (handed data w).2.sent = w.sent := by
  obtain ⟨c, he, _⟩ := new_hook parseDuration cfg client w0 w1 e hnew
  subst he
  have hmiss : (payloadTable data w).toFinmap.lookup key = none := by
    rw [Finmap.lookup_toFinmap, lookup_payloadTable, hm]
    rfl
  obtain ⟨cause, hb⟩ := build_url_error eng cfg (payloadTable data w).toFinmap key hs hk hmiss
  refine ⟨cause, ?_, handed_sent data w⟩
  rw [execute_hook_some]
  unfold Hook.Execute
  have hb2 : Build eng cfg ((handed data w).2.anyTable (handed data w).1).toFinmap =
      Except.error (Error.render "url" cfg.URL cause) := hb
  simp only [hb2]

/-- C6 at the input of the strict-templates test: the URL template references
`missing`, the data is the empty map, and no client is supplied. -/
theorem C6_strict_missing_key_is_url_render_error_witness :
    ∃ cause, hookExecutor.Execute (execHook keyEngine okTransport)
          { h := some { cfg := strictCfg, client := plainClient } }
          { cancelled := false } { Values := some 0 } emptyMapWorld =
        some ({ resp := none, body := none,
                err := some (Error.render "url" strictCfg.URL cause) },
              (handed { Values := some 0 } emptyMapWorld).2)
      ∧ (handed { Values := some 0 } emptyMapWorld).2.sent = emptyMapWorld.sent :=
  C6_strict_missing_key_is_url_render_error keyEngine okTransport tenMs strictCfg none
    emptyMapWorld emptyMapWorld { h := some { cfg := strictCfg, client := plainClient } }
    { cancelled := false } { Values := some 0 } emptyMapWorld "missing"
    rfl rfl (by simp [keyEngine, strictCfg]) rfl

/-- C7: for an executor constructed from a configuration with an empty `Method`
whose templates render (to the request `req`), `Execute` issues exactly that one
request, and its method is `POST` when the rendered body is not empty and `GET`
when it is; the body the decision looks at is the body template's rendering, or
empty when there is no body template. -/
theorem C7_empty_method_defaults_on_rendered_body (eng : TemplateEngine) (net : Transport)
    (parseDuration : String → Option Nat) (cfg : Config) (client : Option Client)
    (w0 w1 : World) (e : hookExecutor) (ctx : Context) (data : TemplateData) (w : World)
    (req : Request)
    (hnew : NewHookExecutor (New parseDuration) cfg client w0 = ((some e, none), w1))
    (hm : cfg.Method = "")
    (hb : Build eng cfg (payloadTable data w).toFinmap = Except.ok req) :
    (∃ res c, e.Execute (execHook eng net) ctx data w =
        some (res, { (handed data w).2 with sent := w.sent ++ [(c, req)] }))
      ∧ (req.Body ≠ "" → req.Method = "POST")
      ∧ (req.Body = "" → req.Method = "GET")
      ∧ ((cfg.Body = "" ∧ req.Body = "")
          ∨ (cfg.Body ≠ "" ∧
              eng.render cfg.Body (payloadTable data w).toFinmap cfg.StrictTemplates =
                Except.ok req.Body)) := by
  obtain ⟨c, he, _⟩ := new_hook parseDuration cfg client w0 w1 e hnew
  subst he
  obtain ⟨h1, h2, h3⟩ := build_method_default eng cfg _ req hm hb
  refine ⟨?_, h1, h2, h3⟩
  have hb2 : Build eng cfg ((handed data w).2.anyTable (handed data w).1).toFinmap =
      Except.ok req := hb
  refine ⟨(Hook.Execute eng net { cfg := cfg, client := c } ctx
    (handed data w).1 (handed data w).2).1, c, ?_⟩
  rw [execute_hook_some, ← handed_sent data w]
  unfold Hook.Execute
  simp only [hb2]
  split
  · rfl
  · split <;> rfl

/-- C7 at two inputs on the data of the delegation test: the configuration of
that test, whose body renders to `hi`, gives `POST`; a configuration whose body
template is not empty but renders to the empty string gives `GET`. -/
theorem C7_empty_method_defaults_on_rendered_body_witness :
    ((∃ res c, hookExecutor.Execute (execHook keyEngine okTransport)
          { h := some { cfg := echoCfg, client := plainClient } }
          { cancelled := false } { Values := some 0 } testWorld =
        some (res, { (handed { Values := some 0 } testWorld).2 with
          sent := testWorld.sent ++
            [(c, { Method := "POST", URL := "42",
                   Header := [("X-Name", "alice"), ("Content-Type", "text/plain")],
                   Body := "hi" })] }))
      ∧ echoCfg.Body ≠ "")
    ∧ ((∃ res c, hookExecutor.Execute (execHook keyEngine okTransport)
          { h := some { cfg := blankBodyCfg, client := plainClient } }
          { cancelled := false } { Values := some 0 } testWorld =
        some (res, { (handed { Values := some 0 } testWorld).2 with
          sent := testWorld.sent ++
            [(c, { Method := "GET", URL := "42", Header := [], Body := "" })] }))
      ∧ blankBodyCfg.Body ≠ "") :=
  ⟨⟨(C7_empty_method_defaults_on_rendered_body keyEngine okTransport tenMs echoCfg none
      emptyMapWorld emptyMapWorld { h := some { cfg := echoCfg, client := plainClient } }
      { cancelled := false } { Values := some 0 } testWorld
      { Method := "POST", URL := "42",
        Header := [("X-Name", "alice"), ("Content-Type", "text/plain")], Body := "hi" }
      rfl rfl rfl).1, by decide⟩,
   ⟨(C7_empty_method_defaults_on_rendered_body keyEngine okTransport tenMs blankBodyCfg none
      emptyMapWorld emptyMapWorld { h := some { cfg := blankBodyCfg, client := plainClient } }
      { cancelled := false } { Values := some 0 } testWorld
      { Method := "GET", URL := "42", Header := [], Body := "" }
      rfl rfl rfl).1, by decide⟩⟩

end gohook
